import Mathlib

/-!
Verification development for the mairie-radar coordination core: the
`ETLPipeline` run loop (src/maire/maire/etl/base.py), the `CoordinatorAgent`
workflow dispatcher (src/maire/maire/agents/base.py) and the `RAGPipeline`
query loop (src/maire/maire/rag/base.py), shallowly embedded in Lean.

Modelling conventions:
- Python `Dict[str, Any]` values are carried as association lists of
  string-keyed opaque values (`MetaVal`); insertion-order and
  replace-in-place semantics of Python dicts are modelled by `dictSet`.
- A fallible collaborator call (`collect`, `validate`, `load`, `retrieve`,
  `rerank`, `generate`, `estimate_confidence`) is modelled as returning
  `Except String α`: `.error e` stands for the call raising an exception
  whose `str` is `e`.
- Python floats (`amount`, `score`, `confidence`) carry no arithmetic in
  the modelled code; they are represented exactly as `Rat`.
- Timestamps (`datetime.now()`) are modelled as a `Nat` clock value passed
  in by the caller.
-/

namespace MairieRadar

/-- Opaque stand-in for heterogeneous dictionary values (`Any` in the source). -/
inductive MetaVal where
  | s (v : String)
  | n (v : Nat)
  | b (v : Bool)
  deriving DecidableEq, Repr

/-- `BudgetDocument` (etl/base.py lines 16-28). -/
structure BudgetDocument where
  city_name : String
  year : Int
  category : String
  amount : Rat
  document_url : String
  extracted_text : String
  metadata : List (String × MetaVal)
  source_type : String
  collection_date : String
  deriving DecidableEq, Repr

/-- A registered collector (etl/base.py lines 45-60): its name and the outcome
of its `collect(**kwargs)` call for the run under consideration. -/
structure BaseCollector where
  name : String
  collect : Except String (List BudgetDocument)

/-- A registered validator (etl/base.py lines 81-96). -/
structure BaseValidator where
  name : String
  validate : BudgetDocument → Except String Bool
  get_validation_errors : BudgetDocument → List String

/-- A registered loader (etl/base.py lines 99-114): the outcome of
`load(documents)` as a function of the document list passed in. -/
structure BaseLoader where
  name : String
  load : List BudgetDocument → Except String Bool

/-- The `results` summary dictionary built by `ETLPipeline.run`
(etl/base.py lines 151-157). -/
structure ETLResults where
  collected : Nat
  parsed : Nat
  validated : Nat
  loaded : Nat
  errors : List String
  deriving DecidableEq, Repr

/-- `ETLPipeline` registration state (etl/base.py lines 120-125); registered
parsers are omitted because `run` never consults them. -/
structure ETLPipeline where
  collectors : List BaseCollector
  validators : List BaseValidator
  loaders : List BaseLoader

/-- Collection phase loop (etl/base.py lines 160-171): each collector's
documents are appended to the working set and counted on success; a raising
collector contributes one labeled error string and the loop continues.
Returns (all_documents, collected count, errors). -/
def collectLoop : List BaseCollector → List BudgetDocument → Nat → List String →
    List BudgetDocument × Nat × List String
  | [], all_documents, collected, errors => (all_documents, collected, errors)
  | c :: rest, all_documents, collected, errors =>
    match c.collect with
    | .ok documents =>
      collectLoop rest (all_documents ++ documents) (collected + documents.length) errors
    | .error e =>
      collectLoop rest all_documents collected
        (errors ++ ["Collection failed for " ++ c.name ++ ": " ++ e])

/-- Validator chain over one document (etl/base.py lines 176-188): validators
run in registration order; the first to return false or raise stops the chain.
Returns (is_valid, error strings contributed for this document, names of the
validators actually invoked — the third component instruments the source's
control flow so short-circuiting is observable). -/
def validateDocument : List BaseValidator → BudgetDocument →
    Bool × List String × List String
  | [], _ => (true, [], [])
  | v :: rest, document =>
    match v.validate document with
    | .error e =>
      (false, ["Validation failed for " ++ v.name ++ ": " ++ e], [v.name])
    | .ok false => (false, v.get_validation_errors document, [v.name])
    | .ok true =>
      let r := validateDocument rest document
      (r.1, r.2.1, v.name :: r.2.2)

/-- Validation phase loop (etl/base.py lines 174-192): each document passing
every validator is appended to `validated_documents` and counted; a rejected
document's error strings are appended to the error list.
Returns (validated_documents, validated count, errors). -/
def validateLoop (validators : List BaseValidator) :
    List BudgetDocument → List BudgetDocument → Nat → List String →
    List BudgetDocument × Nat × List String
  | [], validated_documents, validatedCount, errors =>
    (validated_documents, validatedCount, errors)
  | document :: rest, validated_documents, validatedCount, errors =>
    if (validateDocument validators document).1 then
      validateLoop validators rest (validated_documents ++ [document])
        (validatedCount + 1) errors
    else
      validateLoop validators rest validated_documents validatedCount
        (errors ++ (validateDocument validators document).2.1)

/-- Loading phase loop (etl/base.py lines 194-206): every loader receives the
full validated set; a loader returning true adds its size to the loaded count,
a loader returning false or raising contributes one labeled error string and
the loop continues. Returns (loaded count, errors). -/
def loadLoop : List BaseLoader → List BudgetDocument → Nat → List String →
    Nat × List String
  | [], _, loadedCount, errors => (loadedCount, errors)
  | l :: rest, validated_documents, loadedCount, errors =>
    match l.load validated_documents with
    | .ok true =>
      loadLoop rest validated_documents (loadedCount + validated_documents.length) errors
    | .ok false =>
      loadLoop rest validated_documents loadedCount
        (errors ++ ["Loading failed for " ++ l.name])
    | .error e =>
      loadLoop rest validated_documents loadedCount
        (errors ++ ["Loading failed for " ++ l.name ++ ": " ++ e])

/-- `ETLPipeline.run` (etl/base.py lines 147-215). The three phase loops
thread the mutable `results` dictionary's fields; `parsed` is never touched by
`run`. The translated body is a total function — every collaborator call that
can raise is consumed by its stage-local handler (the `match` arms of the
loops) — so the outer handler at lines 211-215 is unreachable and the
translation returns the body's summary directly. -/
def ETLPipeline.run (p : ETLPipeline) : ETLResults :=
  let c := collectLoop p.collectors [] 0 []
  let v := validateLoop p.validators c.1 [] 0 c.2.2
  let l := loadLoop p.loaders v.1 0 v.2.2
  { collected := c.2.1, parsed := 0, validated := v.2.1, loaded := l.1,
    errors := l.2 }

/-- Whether a collector's `collect` call succeeded. -/
def collectOk (c : BaseCollector) : Bool :=
  match c.collect with
  | .ok _ => true
  | .error _ => false

/-- The documents a collector produced (empty when it raised). -/
def collectedOf (c : BaseCollector) : List BudgetDocument :=
  match c.collect with
  | .ok documents => documents
  | .error _ => []

/-- The exception message of a failed collector (empty when it succeeded). -/
def collectErrOf (c : BaseCollector) : String :=
  match c.collect with
  | .ok _ => ""
  | .error e => e

/-- Python dict assignment `d[k] = v` on a string-keyed dict: replaces the
value in place when the key exists (keeping its insertion position),
appends a new entry otherwise. -/
def dictSet {α : Type} (d : List (String × α)) (k : String) (v : α) :
    List (String × α) :=
  if d.any (fun p => p.1 = k) then
    d.map (fun p => if p.1 = k then (k, v) else p)
  else d ++ [(k, v)]

/-- `AgentStatus` (agents/base.py lines 30-35). -/
inductive AgentStatus where
  | idle | busy | error | offline
  deriving DecidableEq, Repr

/-- `MessageType` (agents/base.py lines 21-27). -/
inductive MessageType where
  | request | response | notification | error | heartbeat
  deriving DecidableEq, Repr

/-- The `.value` string of each `MessageType` enum member. -/
def MessageType.value : MessageType → String
  | .request => "request"
  | .response => "response"
  | .notification => "notification"
  | .error => "error"
  | .heartbeat => "heartbeat"

/-- `Message` (agents/base.py lines 38-48). -/
structure Message where
  id : String
  sender : String
  receiver : String
  message_type : MessageType
  content : List (String × MetaVal)
  timestamp : Nat
  correlation_id : Option String
  deriving DecidableEq, Repr

/-- The dictionary produced by `Message.to_dict` (agents/base.py lines 50-60),
with each field at its string key. -/
structure MessageDict where
  id : String
  sender : String
  receiver : String
  message_type : String
  content : List (String × MetaVal)
  timestamp : String
  correlation_id : Option String
  deriving DecidableEq, Repr

/-- `datetime.isoformat` on the modelled `Nat` clock: timestamps are carried
opaquely through their decimal rendering. -/
def isoformat (t : Nat) : String := toString t

/-- `Message.to_dict` (agents/base.py lines 50-60). -/
def Message.to_dict (m : Message) : MessageDict :=
  { id := m.id, sender := m.sender, receiver := m.receiver,
    message_type := m.message_type.value, content := m.content,
    timestamp := isoformat m.timestamp, correlation_id := m.correlation_id }

/-- The Python enum lookup `MessageType(value)`: the member whose `.value`
equals the given string, if any. -/
def messageTypeOfValue (v : String) : Option MessageType :=
  if v = "request" then some .request
  else if v = "response" then some .response
  else if v = "notification" then some .notification
  else if v = "error" then some .error
  else if v = "heartbeat" then some .heartbeat
  else none

/-- Modelled from the spec: the repository defines `Message.to_dict` but no
inverse parser, and the spec's round-trip property presumes one. Field-wise
inverse reading of the dictionary: the message type is recovered by enum-value
lookup (`MessageType(value)` in Python), the timestamp by reading back the
decimal rendering, and every other field is taken verbatim. -/
def Message.fromDict (d : MessageDict) : Option Message :=
  match messageTypeOfValue d.message_type with
  | none => none
  | some mt =>
    some { id := d.id, sender := d.sender, receiver := d.receiver,
           message_type := mt, content := d.content,
           timestamp := d.timestamp.toNat?.getD 0,
           correlation_id := d.correlation_id }

/-- `AgentCapability` (agents/base.py lines 63-70). -/
structure AgentCapability where
  name : String
  description : String
  input_schema : List (String × MetaVal)
  output_schema : List (String × MetaVal)
  deriving DecidableEq, Repr

/-- One `registered_agents` entry of the coordinator
(agents/base.py lines 205-212). -/
structure AgentInfo where
  capabilities : List AgentCapability
  status : AgentStatus
  last_heartbeat : Nat
  deriving DecidableEq, Repr

/-- The coordinator's `registered_agents` dict: agent id to registry entry,
in insertion order. -/
abbrev Registry := List (String × AgentInfo)

/-- `CoordinatorAgent.register_agent` (agents/base.py lines 205-212): inserts
or overwrites the entry with status IDLE and the current clock as heartbeat. -/
def registerAgent (reg : Registry) (agent_id : String)
    (capabilities : List AgentCapability) (now : Nat) : Registry :=
  dictSet reg agent_id
    { capabilities := capabilities, status := .idle, last_heartbeat := now }

/-- Inner loop of `find_capable_agent` (agents/base.py lines 217-220): scans
one agent's capability list; on a name match the agent is returned when idle,
otherwise the scan continues with the remaining capabilities. -/
def capabilityScan : List AgentCapability → String → AgentStatus → String →
    Option String
  | [], _, _, _ => none
  | c :: rest, required, status, agent_id =>
    if c.name = required then
      if status = .idle then some agent_id
      else capabilityScan rest required status agent_id
    else capabilityScan rest required status agent_id

/-- `CoordinatorAgent.find_capable_agent` (agents/base.py lines 214-221):
scans registered agents in insertion order and returns the first idle agent
exposing the required capability, or none. -/
def findCapableAgent : Registry → String → Option String
  | [], _ => none
  | (agent_id, info) :: rest, required =>
    match capabilityScan info.capabilities required info.status agent_id with
    | some a => some a
    | none => findCapableAgent rest required

/-- One workflow task descriptor: its `id` and required `capability` keys
(agents/base.py lines 238-239, 255). -/
structure WorkflowTask where
  id : String
  capability : String
  deriving DecidableEq, Repr

/-- The dispatch bookkeeping record stored per task
(agents/base.py lines 255-259). -/
structure DispatchRecord where
  status : String
  agent : String
  result : String
  deriving DecidableEq, Repr

/-- The dispatch record written for a task handled by `agent_id`. -/
def dispatchRecord (t : WorkflowTask) (agent_id : String) : DispatchRecord :=
  { status := "completed", agent := agent_id,
    result := "Task " ++ t.id ++ " completed by " ++ agent_id }

/-- The `workflow` dictionary built by `orchestrate_workflow`
(agents/base.py lines 227-233, 261-262, 268-269). -/
structure Workflow where
  id : String
  tasks : List WorkflowTask
  results : List (String × DispatchRecord)
  status : String
  start_time : Nat
  end_time : Option Nat
  error : Option String
  deriving DecidableEq, Repr

/-- Task iteration of `orchestrate_workflow` (agents/base.py lines 237-271):
for each task in order, resolve its capability; an unresolvable capability
raises, caught at the workflow level as status failed with the exception's
message and no further task dispatched; otherwise the dispatch record is
written under the task's id and iteration continues. After the last task the
status becomes completed with an end timestamp. -/
def workflowLoop (reg : Registry) (now : Nat) (w : Workflow) :
    List WorkflowTask → Workflow
  | [] => { w with status := "completed", end_time := some now }
  | t :: rest =>
    match findCapableAgent reg t.capability with
    | none =>
      { w with status := "failed",
               error := some ("No agent found for capability: " ++ t.capability) }
    | some agent_id =>
      workflowLoop reg now
        { w with results := dictSet w.results t.id (dispatchRecord t agent_id) }
        rest

/-- `CoordinatorAgent.orchestrate_workflow` (agents/base.py lines 223-271):
creates the workflow record with status running and iterates the tasks. The
coordinator never changes agent statuses during iteration, so the registry is
constant throughout the call. -/
def orchestrateWorkflow (reg : Registry) (workflow_id : String)
    (tasks : List WorkflowTask) (now : Nat) : Workflow :=
  workflowLoop reg now
    { id := workflow_id, tasks := tasks, results := [], status := "running",
      start_time := now, end_time := none, error := none } tasks

/-- The coordination task descriptor consumed by `execute_task`
(agents/base.py lines 303-311): `id`, `type`, `workflow_id` and `tasks` keys. -/
structure CoordTask where
  id : String
  type : String
  workflow_id : String
  tasks : List WorkflowTask
  deriving DecidableEq, Repr

/-- `TaskResult` (agents/base.py lines 73-83); in `execute_task` the result
payload is either a workflow or absent, modelled as `Option Workflow`. -/
structure TaskResult where
  task_id : String
  agent_id : String
  success : Bool
  result : Option Workflow
  error : Option String
  execution_time : Nat
  metadata : List (String × MetaVal)
  deriving DecidableEq, Repr

/-- `CoordinatorAgent.execute_task` (agents/base.py lines 303-330): an
`orchestrate` task returns success with the orchestrated workflow as payload
(whatever that workflow's own status); any other type raises a ValueError
caught into a failure TaskResult with the error message and no payload. -/
def executeTask (reg : Registry) (task : CoordTask) (now : Nat)
    (self_agent_id : String) : TaskResult :=
  if task.type = "orchestrate" then
    { task_id := task.id, agent_id := self_agent_id, success := true,
      result := some (orchestrateWorkflow reg task.workflow_id task.tasks now),
      error := none, execution_time := 0, metadata := [] }
  else
    { task_id := task.id, agent_id := self_agent_id, success := false,
      result := none,
      error := some ("Unknown task type: " ++ task.type),
      execution_time := 0, metadata := [] }

/-- `QueryResult` (rag/base.py lines 16-30). -/
structure QueryResult where
  document : BudgetDocument
  score : Rat
  metadata : List (String × MetaVal)
  deriving DecidableEq, Repr

/-- `RAGResponse` (rag/base.py lines 33-51). -/
structure RAGResponse where
  query : String
  answer : String
  sources : List QueryResult
  confidence : Rat
  metadata : List (String × MetaVal)
  deriving DecidableEq, Repr

/-- A retriever (rag/base.py lines 122-145): the outcomes of `retrieve`
(as a function of query, k and filters) and of `rerank` (as a function of
query and results). -/
structure BaseRetriever where
  name : String
  retrieve : String → Nat → Option (List (String × MetaVal)) →
    Except String (List QueryResult)
  rerank : String → List QueryResult → Except String (List QueryResult)

/-- A generator (rag/base.py lines 148-178): the outcomes of `generate` and
`estimate_confidence`. -/
structure BaseGenerator where
  name : String
  generate : String → List QueryResult → Except String String
  estimate_confidence : String → String → List QueryResult → Except String Rat

/-- `RAGPipeline` construction state (rag/base.py lines 184-193). -/
structure RAGPipeline where
  name : String
  retriever : BaseRetriever
  generator : BaseGenerator

/-- `RAGPipeline.query` (rag/base.py lines 195-254): retrieve, optionally
re-rank when requested and more than one result came back, generate, estimate
confidence, assemble the response. The source's handler at lines 252-254 logs
and re-raises, so any stage exception propagates to the caller: the
translation returns `.error` in exactly those cases. -/
def RAGPipeline.query (p : RAGPipeline) (query : String) (k : Nat)
    (filters : Option (List (String × MetaVal))) (rerank : Bool) :
    Except String RAGResponse := do
  let retrieved_docs ← p.retriever.retrieve query k filters
  let retrieved_docs ←
    if rerank ∧ 1 < retrieved_docs.length then p.retriever.rerank query retrieved_docs
    else pure retrieved_docs
  let answer ← p.generator.generate query retrieved_docs
  let confidence ← p.generator.estimate_confidence query answer retrieved_docs
  pure { query := query, answer := answer, sources := retrieved_docs,
         confidence := confidence,
         metadata := [("retriever", .s p.retriever.name),
                      ("generator", .s p.generator.name),
                      ("k", .n k), ("rerank", .b rerank)] }

/-- The substitute response synthesized by `batch_query` for a query whose
`query` call raised (rag/base.py lines 270-276). -/
def errorResponse (query : String) (e : String) : RAGResponse :=
  { query := query, answer := "Error processing query: " ++ e, sources := [],
    confidence := 0, metadata := [("error", .s e)] }

/-- The accumulation loop of `batch_query` (rag/base.py lines 262-277):
responses are appended in input order; a raising query contributes the
substitute error response instead of propagating. -/
def batchQueryLoop (p : RAGPipeline) (k : Nat)
    (filters : Option (List (String × MetaVal))) (rerank : Bool)
    (responses : List RAGResponse) : List String → List RAGResponse
  | [] => responses
  | q :: rest =>
    match p.query q k filters rerank with
    | .ok r => batchQueryLoop p k filters rerank (responses ++ [r]) rest
    | .error e =>
      batchQueryLoop p k filters rerank (responses ++ [errorResponse q e]) rest

/-- `RAGPipeline.batch_query` (rag/base.py lines 256-279). -/
def RAGPipeline.batch_query (p : RAGPipeline) (queries : List String) (k : Nat)
    (filters : Option (List (String × MetaVal))) (rerank : Bool) :
    List RAGResponse :=
  batchQueryLoop p k filters rerank [] queries

/-! Spec-side helper definitions used by the theorem statements. -/

/-- Whether a loader succeeds (returns true) on the given document set. -/
def loadOk (l : BaseLoader) (documents : List BudgetDocument) : Bool :=
  match l.load documents with
  | .ok true => true
  | .ok false => false
  | .error _ => false

/-- The error string a loader contributes on the given document set, if any:
one labeled string when it returns false or raises, none on success. -/
def loadFailure (l : BaseLoader) (documents : List BudgetDocument) :
    Option String :=
  match l.load documents with
  | .ok true => none
  | .ok false => some ("Loading failed for " ++ l.name)
  | .error e => some ("Loading failed for " ++ l.name ++ ": " ++ e)

/-- The collection-phase outcome of a run: (working set, collected count,
collection errors). -/
def runCollect (p : ETLPipeline) : List BudgetDocument × Nat × List String :=
  collectLoop p.collectors [] 0 []

/-- The validation-phase outcome of a run: (validated set, validated count,
errors accumulated through validation). -/
def runValidate (p : ETLPipeline) : List BudgetDocument × Nat × List String :=
  validateLoop p.validators (runCollect p).1 [] 0 (runCollect p).2.2

/-- The loading-phase outcome of a run: (loaded count, errors accumulated
through loading). -/
def runLoad (p : ETLPipeline) : Nat × List String :=
  loadLoop p.loaders (runValidate p).1 0 (runValidate p).2.2

/-- Whether a registry entry is an idle agent exposing the required
capability: the search criterion of `find_capable_agent`. -/
def isIdleCapable (required : String) (entry : String × AgentInfo) : Bool :=
  (decide (entry.2.status = AgentStatus.idle)) &&
    entry.2.capabilities.any (fun c => c.name == required)

/-- String-keyed dict well-formedness: keys are pairwise distinct. -/
def keysNodup {α : Type} (d : List (String × α)) : Prop :=
  (d.map Prod.fst).Nodup

/-- One dispatch bookkeeping step: record the resolved agent's dispatch under
the task's id (a task with no capable agent records nothing). -/
def dispatchStep (reg : Registry) (m : List (String × DispatchRecord))
    (t : WorkflowTask) : List (String × DispatchRecord) :=
  match findCapableAgent reg t.capability with
  | some a => dictSet m t.id (dispatchRecord t a)
  | none => m

/-- The result mapping accumulated by dispatching exactly the given tasks
against a fixed registry, in order. -/
def dispatchedResults (reg : Registry) (tasks : List WorkflowTask) :
    List (String × DispatchRecord) :=
  tasks.foldl (dispatchStep reg) []

/-! Concrete fixtures used by the witness theorems. -/

/-- A concrete budget document. -/
def sampleDoc : BudgetDocument :=
  { city_name := "Lyon", year := 2023, category := "roads", amount := 12,
    document_url := "http:example", extracted_text := "roads budget",
    metadata := [], source_type := "pdf", collection_date := "2023-05-01" }

/-- A second concrete budget document. -/
def sampleDoc2 : BudgetDocument :=
  { sampleDoc with city_name := "Paris", category := "schools" }

/-- A validator accepting every document. -/
def vAccept : BaseValidator :=
  { name := "schema", validate := fun _ => .ok true,
    get_validation_errors := fun _ => [] }

/-- A validator rejecting every document with one reported error string. -/
def vReject : BaseValidator :=
  { name := "range", validate := fun _ => .ok false,
    get_validation_errors := fun _ => ["amount must be positive"] }

/-- A validator placed after the rejecting one; never reached. -/
def vTail : BaseValidator :=
  { name := "tail", validate := fun _ => .ok true,
    get_validation_errors := fun _ => [] }

/-- A concrete query result with the given score. -/
def sampleQR (i : Nat) : QueryResult :=
  { document := sampleDoc, score := i, metadata := [] }

/-- Five retrieved results, in raw retrieval order. -/
def fiveResults : List QueryResult :=
  [sampleQR 1, sampleQR 2, sampleQR 3, sampleQR 4, sampleQR 5]

/-- A retriever returning five results and reversing order on rerank. -/
def revRetriever : BaseRetriever :=
  { name := "rev", retrieve := fun _ _ _ => .ok fiveResults,
    rerank := fun _ results => .ok results.reverse }

/-- A retriever whose retrieve call raises. -/
def failRetriever : BaseRetriever :=
  { name := "down", retrieve := fun _ _ _ => .error "store unreachable",
    rerank := fun _ results => .ok results }

/-- A retriever raising only for one particular query text. -/
def mixedRetriever : BaseRetriever :=
  { name := "mixed",
    retrieve := fun q _ _ => if q = "bad" then .error "boom" else .ok fiveResults,
    rerank := fun _ results => .ok results }

/-- A generator succeeding with a fixed answer and confidence. -/
def okGenerator : BaseGenerator :=
  { name := "gen", generate := fun _ _ => .ok "the budget is 12",
    estimate_confidence := fun _ _ _ => .ok 1 }

/-- RAG pipeline over the reversing retriever. -/
def revPipeline : RAGPipeline :=
  { name := "default", retriever := revRetriever, generator := okGenerator }

/-- RAG pipeline over the raising retriever. -/
def failPipeline : RAGPipeline :=
  { name := "default", retriever := failRetriever, generator := okGenerator }

/-- RAG pipeline over the per-query raising retriever. -/
def mixedPipeline : RAGPipeline :=
  { name := "default", retriever := mixedRetriever, generator := okGenerator }

/-- A registry entry advertising one named capability, idle. -/
def capOf (n : String) : AgentCapability :=
  { name := n, description := "", input_schema := [], output_schema := [] }

/-- A concrete registry: one idle collector agent, one busy analyzer, one
idle analyzer registered later. -/
def sampleRegistry : Registry :=
  [("a1", { capabilities := [capOf "collect"], status := .idle,
            last_heartbeat := 0 }),
   ("a2", { capabilities := [capOf "analyze"], status := .busy,
            last_heartbeat := 0 }),
   ("a3", { capabilities := [capOf "analyze"], status := .idle,
            last_heartbeat := 0 })]

/-! Accumulator lemmas: each ETL phase loop only appends to its accumulators. -/

theorem collectLoop_acc (cs : List BaseCollector) :
    ∀ (docs : List BudgetDocument) (n : Nat) (errs : List String),
    collectLoop cs docs n errs =
      (docs ++ (collectLoop cs [] 0 []).1,
       n + (collectLoop cs [] 0 []).2.1,
       errs ++ (collectLoop cs [] 0 []).2.2) := by
  induction cs with
  | nil => intro docs n errs; simp [collectLoop]
  | cons c rest ih =>
    intro docs n errs
    cases h : c.collect with
    | ok ds =>
      simp only [collectLoop, h]
      rw [ih (docs ++ ds) (n + ds.length) errs, ih ([] ++ ds) (0 + ds.length) []]
      simp [List.append_assoc, Nat.add_assoc]
    | error e =>
      simp only [collectLoop, h]
      rw [ih docs n (errs ++ ["Collection failed for " ++ c.name ++ ": " ++ e]),
          ih [] 0 ([] ++ ["Collection failed for " ++ c.name ++ ": " ++ e])]
      simp [List.append_assoc]

theorem validateLoop_acc (vs : List BaseValidator) (ds : List BudgetDocument) :
    ∀ (acc : List BudgetDocument) (n : Nat) (errs : List String),
    validateLoop vs ds acc n errs =
      (acc ++ (validateLoop vs ds [] 0 []).1,
       n + (validateLoop vs ds [] 0 []).2.1,
       errs ++ (validateLoop vs ds [] 0 []).2.2) := by
  induction ds with
  | nil => intro acc n errs; simp [validateLoop]
  | cons document rest ih =>
    intro acc n errs
    cases hv : (validateDocument vs document).1 with
    | true =>
      simp only [validateLoop, hv, if_true]
      rw [ih (acc ++ [document]) (n + 1) errs, ih ([] ++ [document]) (0 + 1) []]
      simp [List.append_assoc, Nat.add_assoc]
    | false =>
      simp only [validateLoop, hv, Bool.false_eq_true, if_false]
      rw [ih acc n (errs ++ (validateDocument vs document).2.1),
          ih [] 0 ([] ++ (validateDocument vs document).2.1)]
      simp [List.append_assoc]

theorem loadLoop_acc (ls : List BaseLoader) (V : List BudgetDocument) :
    ∀ (n : Nat) (errs : List String),
    loadLoop ls V n errs =
      (n + (loadLoop ls V 0 []).1, errs ++ (loadLoop ls V 0 []).2) := by
  induction ls with
  | nil => intro n errs; simp [loadLoop]
  | cons l rest ih =>
    intro n errs
    cases h : l.load V with
    | ok b =>
      cases b with
      | true =>
        simp only [loadLoop, h]
        rw [ih (n + V.length) errs, ih (0 + V.length) []]
        simp [Nat.add_assoc]
      | false =>
        simp only [loadLoop, h]
        rw [ih n (errs ++ ["Loading failed for " ++ l.name]),
            ih 0 ([] ++ ["Loading failed for " ++ l.name])]
        simp [List.append_assoc]
    | error e =>
      simp only [loadLoop, h]
      rw [ih n (errs ++ ["Loading failed for " ++ l.name ++ ": " ++ e]),
          ih 0 ([] ++ ["Loading failed for " ++ l.name ++ ": " ++ e])]
      simp [List.append_assoc]

/-! Closed forms of the ETL phase loops. -/

theorem collectLoop_closed (cs : List BaseCollector) :
    collectLoop cs [] 0 [] =
      (((cs.filter collectOk).map collectedOf).flatten,
       (((cs.filter collectOk).map collectedOf).map List.length).sum,
       (cs.filter (fun c => !collectOk c)).map
         (fun c => "Collection failed for " ++ c.name ++ ": " ++ collectErrOf c)) := by
  induction cs with
  | nil => simp [collectLoop]
  | cons c rest ih =>
    cases h : c.collect with
    | ok ds =>
      have hok : collectOk c = true := by simp [collectOk, h]
      have hdocs : collectedOf c = ds := by simp [collectedOf, h]
      simp only [collectLoop, h]
      rw [collectLoop_acc, ih]
      simp [List.filter_cons, hok, hdocs]
    | error e =>
      have hok : collectOk c = false := by simp [collectOk, h]
      have herr : collectErrOf c = e := by simp [collectErrOf, h]
      simp only [collectLoop, h]
      rw [collectLoop_acc, ih]
      simp [List.filter_cons, hok, herr]

theorem validateLoop_closed (vs : List BaseValidator) (ds : List BudgetDocument) :
    validateLoop vs ds [] 0 [] =
      (ds.filter (fun d => (validateDocument vs d).1),
       (ds.filter (fun d => (validateDocument vs d).1)).length,
       (ds.filterMap (fun d =>
          if (validateDocument vs d).1 then none
          else some (validateDocument vs d).2.1)).flatten) := by
  induction ds with
  | nil => simp [validateLoop]
  | cons document rest ih =>
    cases hv : (validateDocument vs document).1 with
    | true =>
      simp only [validateLoop, hv, if_true]
      rw [validateLoop_acc, ih]
      simp [List.filter_cons, List.filterMap_cons, hv, Nat.add_comm]
    | false =>
      simp only [validateLoop, hv, Bool.false_eq_true, if_false]
      rw [validateLoop_acc, ih]
      simp [List.filter_cons, List.filterMap_cons, hv]

theorem loadLoop_closed (ls : List BaseLoader) (V : List BudgetDocument) :
    loadLoop ls V 0 [] =
      ((ls.filter (fun l => loadOk l V)).length * V.length,
       ls.filterMap (fun l => loadFailure l V)) := by
  induction ls with
  | nil => simp [loadLoop]
  | cons l rest ih =>
    cases h : l.load V with
    | ok b =>
      cases b with
      | true =>
        have h1 : loadOk l V = true := by simp [loadOk, h]
        have h2 : loadFailure l V = none := by simp [loadFailure, h]
        simp only [loadLoop, h]
        rw [loadLoop_acc, ih]
        simp only [List.filter_cons, List.filterMap_cons, h1, h2, if_true]
        simp only [List.length_cons]
        ring_nf
        simp [Nat.add_mul, Nat.add_comm]
      | false =>
        have h1 : loadOk l V = false := by simp [loadOk, h]
        have h2 : loadFailure l V = some ("Loading failed for " ++ l.name) := by
          simp [loadFailure, h]
        simp only [loadLoop, h]
        rw [loadLoop_acc, ih]
        simp [List.filter_cons, List.filterMap_cons, h1, h2]
    | error e =>
      have h1 : loadOk l V = false := by simp [loadOk, h]
      have h2 : loadFailure l V =
          some ("Loading failed for " ++ l.name ++ ": " ++ e) := by
        simp [loadFailure, h]
      simp only [loadLoop, h]
      rw [loadLoop_acc, ih]
      simp [List.filter_cons, List.filterMap_cons, h1, h2]

/-- `run` assembles exactly the three phase outcomes. -/
theorem run_eq (p : ETLPipeline) :
    p.run = { collected := (runCollect p).2.1, parsed := 0,
              validated := (runValidate p).2.1, loaded := (runLoad p).1,
              errors := (runLoad p).2 } := rfl

/-- C1: for every set of registered collectors, `run` merges the successful
collectors' outputs into the working set in registration order (each
collector's own emission order preserved), reports `collected` as the sum of
the successful collectors' document counts, and records exactly one labeled
error entry per failed collector, in order; these collection errors stand at
the head of the run's error list. -/
theorem etl_collection_summary (p : ETLPipeline) :
    (runCollect p).1 = ((p.collectors.filter collectOk).map collectedOf).flatten ∧
    p.run.collected =
      (((p.collectors.filter collectOk).map collectedOf).map List.length).sum ∧
    (runCollect p).2.2 =
      (p.collectors.filter (fun c => !collectOk c)).map
        (fun c => "Collection failed for " ++ c.name ++ ": " ++ collectErrOf c) ∧
    ∃ tail, p.run.errors = (runCollect p).2.2 ++ tail := by
  refine ⟨?_, ?_, ?_, ?_⟩
  · show (collectLoop p.collectors [] 0 []).1 = _
    rw [collectLoop_closed]
  · rw [run_eq]
    show (runCollect p).2.1 = _
    show (collectLoop p.collectors [] 0 []).2.1 = _
    rw [collectLoop_closed]
  · show (collectLoop p.collectors [] 0 []).2.2 = _
    rw [collectLoop_closed]
  · refine ⟨(validateLoop p.validators (runCollect p).1 [] 0 []).2.2 ++
      (loadLoop p.loaders (runValidate p).1 0 []).2, ?_⟩
    have h1 : p.run.errors = (runLoad p).2 := by rw [run_eq]
    rw [h1]
    show (loadLoop p.loaders (runValidate p).1 0 (runValidate p).2.2).2 = _
    rw [loadLoop_acc]
    have h2 : (runValidate p).2.2 =
        (runCollect p).2.2 ++ (validateLoop p.validators (runCollect p).1 [] 0 []).2.2 := by
      show (validateLoop p.validators (runCollect p).1 [] 0 (runCollect p).2.2).2.2 = _
      rw [validateLoop_acc]
    rw [h2]
    simp [List.append_assoc]

/-- C3: every loader runs over the full validated set regardless of other
loaders' outcomes — the closed form ranges over the whole loader list — the
loaded count is (number of loaders returning true) times the validated-set
size on top of the incoming count, and each failing loader (raising or
returning false) contributes exactly one error string. -/
theorem etl_loading_summary (ls : List BaseLoader) (V : List BudgetDocument)
    (n : Nat) (errs : List String) (p : ETLPipeline) :
    (loadLoop ls V n errs).1 =
      n + (ls.filter (fun l => loadOk l V)).length * V.length ∧
    (loadLoop ls V n errs).2 = errs ++ ls.filterMap (fun l => loadFailure l V) ∧
    p.run.loaded =
      (p.loaders.filter (fun l => loadOk l (runValidate p).1)).length *
        (runValidate p).1.length := by
  refine ⟨?_, ?_, ?_⟩
  · rw [loadLoop_acc, loadLoop_closed]
  · rw [loadLoop_acc, loadLoop_closed]
  · have h1 : p.run.loaded = (runLoad p).1 := by rw [run_eq]
    rw [h1]
    show (loadLoop p.loaders (runValidate p).1 0 (runValidate p).2.2).1 = _
    rw [loadLoop_acc, loadLoop_closed]
    simp

/-- C7: `run` always returns the structured summary assembled from the three
phase loops — in the translation the body is a total function, every raising
collaborator call being consumed by its stage-local handler, so the outer
handler of lines 211-215 is never reached — and the accumulators are
cumulative: each phase's error list is an initial segment of the final error
list and each count is fixed by its own phase, never reset. -/
theorem etl_run_returns_summary (p : ETLPipeline) :
    p.run = { collected := (runCollect p).2.1, parsed := 0,
              validated := (runValidate p).2.1, loaded := (runLoad p).1,
              errors := (runLoad p).2 } ∧
    (∃ t, p.run.errors = (runCollect p).2.2 ++ t) ∧
    (∃ t, p.run.errors = (runValidate p).2.2 ++ t) := by
  refine ⟨run_eq p, ?_, ?_⟩
  · refine ⟨(validateLoop p.validators (runCollect p).1 [] 0 []).2.2 ++
      (loadLoop p.loaders (runValidate p).1 0 []).2, ?_⟩
    have h1 : p.run.errors = (runLoad p).2 := by rw [run_eq]
    rw [h1]
    show (loadLoop p.loaders (runValidate p).1 0 (runValidate p).2.2).2 = _
    rw [loadLoop_acc]
    have h2 : (runValidate p).2.2 =
        (runCollect p).2.2 ++ (validateLoop p.validators (runCollect p).1 [] 0 []).2.2 := by
      show (validateLoop p.validators (runCollect p).1 [] 0 (runCollect p).2.2).2.2 = _
      rw [validateLoop_acc]
    rw [h2]
    simp [List.append_assoc]
  · refine ⟨(loadLoop p.loaders (runValidate p).1 0 []).2, ?_⟩
    have h1 : p.run.errors = (runLoad p).2 := by rw [run_eq]
    rw [h1]
    show (loadLoop p.loaders (runValidate p).1 0 (runValidate p).2.2).2 = _
    rw [loadLoop_acc]

/-- A document is valid exactly when every validator in the chain accepts it. -/
theorem validateDocument_valid_iff (vs : List BaseValidator) (d : BudgetDocument) :
    (validateDocument vs d).1 = true ↔ ∀ u ∈ vs, u.validate d = .ok true := by
  induction vs with
  | nil => simp [validateDocument]
  | cons v rest ih =>
    cases h : v.validate d with
    | error e =>
      simp only [validateDocument, h]
      constructor
      · intro hf; exact absurd hf (by simp)
      · intro hall
        have := hall v (by simp)
        rw [h] at this
        exact absurd this (by simp)
    | ok b =>
      cases b with
      | false =>
        simp only [validateDocument, h]
        constructor
        · intro hf; exact absurd hf (by simp)
        · intro hall
          have := hall v (by simp)
          rw [h] at this
          simp at this
      | true =>
        simp only [validateDocument, h]
        rw [ih]
        constructor
        · intro hall u hu
          cases hu with
          | head => exact h
          | tail _ hu => exact hall u hu
        · intro hall u hu
          exact hall u (List.mem_cons_of_mem v hu)

/-- The first rejecting validator stops the chain: the invoked validators are
exactly the accepting initial segment plus the rejecting one, the document is
invalid, and the contributed errors are the rejecting validator's reported
strings (or its labeled exception message). -/
theorem validateDocument_shortcircuit (pre post : List BaseValidator)
    (v : BaseValidator) (d : BudgetDocument)
    (hpre : ∀ u ∈ pre, u.validate d = .ok true)
    (hrej : v.validate d ≠ .ok true) :
    (validateDocument (pre ++ v :: post) d).1 = false ∧
    (validateDocument (pre ++ v :: post) d).2.2 =
      pre.map (fun u => u.name) ++ [v.name] ∧
    (validateDocument (pre ++ v :: post) d).2.1 =
      (match v.validate d with
       | .ok _ => v.get_validation_errors d
       | .error e => ["Validation failed for " ++ v.name ++ ": " ++ e]) := by
  induction pre with
  | nil =>
    cases h : v.validate d with
    | error e => simp [validateDocument, h]
    | ok b =>
      cases b with
      | false => simp [validateDocument, h]
      | true => exact absurd h hrej
  | cons u rest ih =>
    have hu : u.validate d = .ok true := hpre u (by simp)
    have ih' := ih (fun w hw => hpre w (List.mem_cons_of_mem u hw))
    simp only [List.cons_append, validateDocument, hu]
    exact ⟨ih'.1, by simp [ih'.2.1], ih'.2.2⟩

/-- C2: a collected document appears in the validated set (and is counted)
iff every registered validator accepts it; the first rejecting validator
short-circuits the chain for that document — the invoked validators are
exactly those before it plus itself — and its reported error strings (or the
labeled exception message) are what that document contributes to the error
list. -/
theorem etl_validation_chain (vs pre post : List BaseValidator)
    (v : BaseValidator) (d : BudgetDocument) (docs : List BudgetDocument)
    (hdecomp : vs = pre ++ v :: post)
    (hpre : ∀ u ∈ pre, u.validate d = .ok true)
    (hrej : v.validate d ≠ .ok true) :
    ((validateDocument vs d).1 = true ↔ ∀ u ∈ vs, u.validate d = .ok true) ∧
    (validateLoop vs docs [] 0 []).1 =
      docs.filter (fun x => (validateDocument vs x).1) ∧
    (validateLoop vs docs [] 0 []).2.1 =
      (docs.filter (fun x => (validateDocument vs x).1)).length ∧
    (d ∈ (validateLoop vs docs [] 0 []).1 ↔
      d ∈ docs ∧ ∀ u ∈ vs, u.validate d = .ok true) ∧
    (validateDocument vs d).2.2 = pre.map (fun u => u.name) ++ [v.name] ∧
    (validateDocument vs d).2.1 =
      (match v.validate d with
       | .ok _ => v.get_validation_errors d
       | .error e => ["Validation failed for " ++ v.name ++ ": " ++ e]) := by
  subst hdecomp
  have hsc := validateDocument_shortcircuit pre post v d hpre hrej
  refine ⟨validateDocument_valid_iff _ d, ?_, ?_, ?_, hsc.2.1, hsc.2.2⟩
  · rw [validateLoop_closed]
  · rw [validateLoop_closed]
  · rw [validateLoop_closed]
    simp only [List.mem_filter]
    rw [validateDocument_valid_iff]

/-- Witness for C2 at a concrete chain: an accepting validator, then a
rejecting one, then a never-reached one. -/
theorem etl_validation_chain_witness :
    (validateDocument ([vAccept] ++ vReject :: [vTail]) sampleDoc).2.2 =
      ["schema", "range"] ∧
    (validateDocument ([vAccept] ++ vReject :: [vTail]) sampleDoc).2.1 =
      ["amount must be positive"] ∧
    ¬ sampleDoc ∈
      (validateLoop ([vAccept] ++ vReject :: [vTail]) [sampleDoc] [] 0 []).1 := by
  have h := etl_validation_chain ([vAccept] ++ vReject :: [vTail]) [vAccept]
    [vTail] vReject sampleDoc [sampleDoc] rfl
    (by intro u hu; simp at hu; subst hu; rfl)
    (by simp [vReject])
  refine ⟨?_, ?_, ?_⟩
  · rw [h.2.2.2.2.1]; rfl
  · rw [h.2.2.2.2.2]; rfl
  · rw [h.2.2.2.1]
    intro hc
    exact absurd (hc.2 vReject (by simp)) (by simp [vReject])

/-! Python-dict lemmas for `dictSet`. -/

theorem dictSet_lookup {α : Type} (d : List (String × α)) (k : String) (v : α) :
    List.lookup k (dictSet d k v) = some v := by
  unfold dictSet
  by_cases hp : d.any (fun p => decide (p.1 = k))
  · rw [if_pos hp]
    induction d with
    | nil => simp at hp
    | cons e rest ih =>
      rw [List.map_cons]
      by_cases he : e.1 = k
      · show List.lookup k ((if e.1 = k then (k, v) else e) :: _) = some v
        rw [if_pos he]
        simp [List.lookup]
      · have hrest : rest.any (fun p => decide (p.1 = k)) = true := by
          simp only [List.any_cons, Bool.or_eq_true, decide_eq_true_eq] at hp
          rcases hp with h | h
          · exact absurd h he
          · exact h
        have hke : (k == e.1) = false := by
          rw [beq_eq_false_iff_ne]
          exact fun h => he h.symm
        show List.lookup k ((if e.1 = k then (k, v) else e) :: _) = some v
        rw [if_neg he]
        simp only [List.lookup, hke]
        exact ih hrest
  · rw [if_neg hp]
    induction d with
    | nil => simp [List.lookup]
    | cons e rest ih =>
      have he : ¬(e.1 = k) := by
        intro h
        exact hp (by simp [List.any_cons, h])
      have hrest : ¬(rest.any (fun p => decide (p.1 = k)) = true) := by
        intro h
        exact hp (by simp [List.any_cons, h])
      have hke : (k == e.1) = false := by
        rw [beq_eq_false_iff_ne]
        exact fun h => he h.symm
      simp only [List.cons_append, List.lookup, hke]
      exact ih hrest

theorem dictSet_keys_of_mem {α : Type} (d : List (String × α)) (k : String)
    (v : α) (hp : d.any (fun p => decide (p.1 = k)) = true) :
    (dictSet d k v).map Prod.fst = d.map Prod.fst := by
  unfold dictSet
  rw [if_pos hp, List.map_map]
  apply List.map_congr_left
  intro p _
  by_cases h : p.1 = k <;> simp [h]

theorem dictSet_keysNodup {α : Type} (d : List (String × α)) (k : String)
    (v : α) (h : keysNodup d) : keysNodup (dictSet d k v) := by
  unfold keysNodup
  by_cases hp : d.any (fun p => decide (p.1 = k)) = true
  · rw [dictSet_keys_of_mem d k v hp]
    exact h
  · unfold dictSet
    rw [if_neg hp, List.map_append]
    simp only [List.map_cons, List.map_nil]
    rw [List.nodup_append]
    refine ⟨h, List.nodup_singleton k, ?_⟩
    intro a ha hb
    simp at hb
    subst hb
    obtain ⟨p, hpd, hpk⟩ := List.mem_map.mp ha
    apply hp
    simp only [List.any_eq_true, decide_eq_true_eq]
    exact ⟨p, hpd, hpk⟩

theorem dictSet_count_key {α : Type} (d : List (String × α)) (k : String)
    (v : α) (hnodup : keysNodup d) :
    ((dictSet d k v).filter (fun e => e.1 == k)).length = 1 := by
  by_cases hp : d.any (fun p => decide (p.1 = k)) = true
  · unfold dictSet
    rw [if_pos hp]
    rw [← List.countP_eq_length_filter, List.countP_map]
    have hpred : ∀ p ∈ d,
        (((fun e : String × α => e.1 == k) ∘
            fun p => if p.1 = k then (k, v) else p) p = true ↔
          (fun e : String × α => e.1 == k) p = true) := by
      intro p _
      by_cases h : p.1 = k <;> simp [h]
    rw [List.countP_congr hpred]
    have hcount : d.countP (fun e => e.1 == k) = (d.map Prod.fst).count k := by
      rw [List.count, List.countP_map]
      rfl
    rw [hcount]
    have hmem : k ∈ d.map Prod.fst := by
      simp only [List.any_eq_true, decide_eq_true_eq] at hp
      obtain ⟨p, hpd, hpk⟩ := hp
      exact List.mem_map.mpr ⟨p, hpd, hpk⟩
    have hle := List.nodup_iff_count_le_one.mp hnodup k
    have hge := List.count_pos_iff.mpr hmem
    omega
  · unfold dictSet
    rw [if_neg hp, List.filter_append]
    have h1 : d.filter (fun e => e.1 == k) = [] := by
      rw [List.filter_eq_nil_iff]
      intro p hpd
      intro hk
      exact hp (by
        simp only [List.any_eq_true, decide_eq_true_eq]
        exact ⟨p, hpd, by simpa using hk⟩)
    rw [h1]
    simp

/-! `find_capable_agent` closed form. -/

theorem capabilityScan_eq (caps : List AgentCapability) (required : String)
    (status : AgentStatus) (agent_id : String) :
    capabilityScan caps required status agent_id =
      (if status = .idle ∧ caps.any (fun c => c.name == required) then
        some agent_id else none) := by
  induction caps with
  | nil => simp [capabilityScan]
  | cons c rest ih =>
    simp only [capabilityScan]
    by_cases hname : c.name = required
    · rw [if_pos hname]
      by_cases hst : status = .idle
      · rw [if_pos hst, if_pos ⟨hst, by simp [List.any_cons, hname]⟩]
      · rw [if_neg hst, ih, if_neg (fun h => hst h.1), if_neg (fun h => hst h.1)]
    · rw [if_neg hname, ih]
      have : (c :: rest).any (fun c => c.name == required) =
          rest.any (fun c => c.name == required) := by
        simp [List.any_cons, hname]
      rw [this]

theorem findCapableAgent_eq (reg : Registry) (required : String) :
    findCapableAgent reg required =
      (reg.find? (isIdleCapable required)).map Prod.fst := by
  induction reg with
  | nil => simp [findCapableAgent]
  | cons entry rest ih =>
    obtain ⟨agent_id, info⟩ := entry
    simp only [findCapableAgent]
    rw [capabilityScan_eq]
    by_cases h : info.status = .idle ∧
        info.capabilities.any (fun c => c.name == required) = true
    · rw [if_pos h]
      have hb : isIdleCapable required (agent_id, info) = true := by
        simp only [isIdleCapable, Bool.and_eq_true, decide_eq_true_eq]
        exact h
      rw [List.find?_cons_of_pos _ hb]
      rfl
    · rw [if_neg h, ih]
      have hb : ¬ isIdleCapable required (agent_id, info) = true := by
        intro hc
        simp only [isIdleCapable, Bool.and_eq_true, decide_eq_true_eq] at hc
        exact h hc
      rw [List.find?_cons_of_neg _ hb]

/-- C6: `find_capable_agent` returns the earliest-registered agent that is
idle and exposes the required capability — the first registry entry
satisfying the search criterion — and none when no entry satisfies it;
re-registering an agent id replaces its entry in place: the entry now carries
exactly the new capability list with status reset to IDLE, the registry keeps
exactly one entry for that id, and key uniqueness is preserved. -/
theorem find_capable_agent_spec (reg : Registry) (required agent_id : String)
    (c1 c2 : List AgentCapability) (t1 t2 : Nat) (hnodup : keysNodup reg) :
    findCapableAgent reg required =
      (reg.find? (isIdleCapable required)).map Prod.fst ∧
    List.lookup agent_id
        (registerAgent (registerAgent reg agent_id c1 t1) agent_id c2 t2) =
      some { capabilities := c2, status := .idle, last_heartbeat := t2 } ∧
    ((registerAgent (registerAgent reg agent_id c1 t1) agent_id c2 t2).filter
        (fun e => e.1 == agent_id)).length = 1 ∧
    keysNodup (registerAgent (registerAgent reg agent_id c1 t1) agent_id c2 t2) := by
  have h1 : keysNodup (registerAgent reg agent_id c1 t1) :=
    dictSet_keysNodup reg agent_id _ hnodup
  refine ⟨findCapableAgent_eq reg required, ?_, ?_, ?_⟩
  · exact dictSet_lookup _ agent_id _
  · exact dictSet_count_key _ agent_id _ h1
  · exact dictSet_keysNodup _ agent_id _ h1

/-- Witness for C6 on a concrete registry: the busy analyzer a2 is skipped in
favor of the later idle analyzer a3, an unknown capability resolves to none,
and re-registering a1 replaces its entry. -/
theorem find_capable_agent_witness :
    findCapableAgent sampleRegistry "analyze" = some "a3" ∧
    findCapableAgent sampleRegistry "parse" = none ∧
    List.lookup "a1"
        (registerAgent (registerAgent sampleRegistry "a1" [capOf "parse"] 1)
          "a1" [capOf "analyze"] 2) =
      some { capabilities := [capOf "analyze"], status := .idle,
             last_heartbeat := 2 } ∧
    ((registerAgent (registerAgent sampleRegistry "a1" [capOf "parse"] 1)
        "a1" [capOf "analyze"] 2).filter (fun e => e.1 == "a1")).length = 1 := by
  have hnodup : keysNodup sampleRegistry := by
    unfold keysNodup sampleRegistry
    decide
  have h := find_capable_agent_spec sampleRegistry "analyze" "a1"
    [capOf "parse"] [capOf "analyze"] 1 2 hnodup
  have h2 := find_capable_agent_spec sampleRegistry "parse" "a1"
    [capOf "parse"] [capOf "analyze"] 1 2 hnodup
  refine ⟨?_, ?_, h.2.1, h.2.2.1⟩
  · rw [h.1]; rfl
  · rw [h2.1]; rfl

/-- When every task in the list resolves to a capable agent, the workflow loop
dispatches each in order and completes. -/
theorem workflowLoop_all_resolvable (reg : Registry) (now : Nat)
    (ts : List WorkflowTask) :
    ∀ w : Workflow, (∀ t ∈ ts, (findCapableAgent reg t.capability).isSome) →
    workflowLoop reg now w ts =
      { w with results := ts.foldl (dispatchStep reg) w.results,
               status := "completed", end_time := some now } := by
  induction ts with
  | nil => intro w _; rfl
  | cons t rest ih =>
    intro w hall
    have ht := hall t (by simp)
    obtain ⟨a, ha⟩ := Option.isSome_iff_exists.mp ht
    simp only [workflowLoop, ha]
    rw [ih _ (fun u hu => hall u (List.mem_cons_of_mem t hu))]
    simp only [List.foldl_cons]
    have hstep : dispatchStep reg w.results t =
        dictSet w.results t.id (dispatchRecord t a) := by
      simp [dispatchStep, ha]
    rw [hstep]

/-- When the tasks start with a resolvable initial segment followed by an
unresolvable task, the loop dispatches exactly that initial segment and then
fails with the missing capability named, never reaching the remaining tasks. -/
theorem workflowLoop_fail_fast (reg : Registry) (now : Nat)
    (pre : List WorkflowTask) (t : WorkflowTask) (post : List WorkflowTask) :
    ∀ w : Workflow, (∀ u ∈ pre, (findCapableAgent reg u.capability).isSome) →
    findCapableAgent reg t.capability = none →
    workflowLoop reg now w (pre ++ t :: post) =
      { w with results := pre.foldl (dispatchStep reg) w.results,
               status := "failed",
               error := some ("No agent found for capability: " ++ t.capability) } := by
  induction pre with
  | nil =>
    intro w _ ht
    simp only [List.nil_append, workflowLoop, ht, List.foldl_nil]
  | cons u rest ih =>
    intro w hall ht
    have hu := hall u (by simp)
    obtain ⟨a, ha⟩ := Option.isSome_iff_exists.mp hu
    simp only [List.cons_append, workflowLoop, ha, List.append_eq]
    rw [ih _ (fun x hx => hall x (List.mem_cons_of_mem u hx)) ht]
    simp only [List.foldl_cons]
    have hstep : dispatchStep reg w.results u =
        dictSet w.results u.id (dispatchRecord u a) := by
      simp [dispatchStep, ha]
    rw [hstep]

/-- C4: when the task list decomposes into a resolvable initial segment, a
task whose required capability no idle registered agent resolves, and a
remainder, `orchestrate_workflow` returns (never raises) the workflow object
with status failed, an error naming the missing capability, and a result
mapping holding exactly the dispatch records of the initial segment — nothing
from the failing task onward; when every task resolves, the status becomes
completed with an end timestamp and every task's dispatch recorded. -/
theorem coordinator_workflow_fail_fast (reg : Registry) (wid : String)
    (pre post tasks : List WorkflowTask) (t : WorkflowTask) (now : Nat) :
    ((∀ u ∈ pre, (findCapableAgent reg u.capability).isSome) →
     findCapableAgent reg t.capability = none →
     orchestrateWorkflow reg wid (pre ++ t :: post) now =
       { id := wid, tasks := pre ++ t :: post,
         results := dispatchedResults reg pre, status := "failed",
         start_time := now, end_time := none,
         error := some ("No agent found for capability: " ++ t.capability) }) ∧
    ((∀ u ∈ tasks, (findCapableAgent reg u.capability).isSome) →
     orchestrateWorkflow reg wid tasks now =
       { id := wid, tasks := tasks,
         results := dispatchedResults reg tasks, status := "completed",
         start_time := now, end_time := some now, error := none }) := by
  constructor
  · intro hpre ht
    unfold orchestrateWorkflow
    rw [workflowLoop_fail_fast reg now pre t post _ hpre ht]
    rfl
  · intro hall
    unfold orchestrateWorkflow
    rw [workflowLoop_all_resolvable reg now tasks _ hall]
    rfl

/-- Witness for C4 on a concrete registry and task list: the second task's
capability is unregistered, so the workflow fails there with only the first
task dispatched; with resolvable tasks only, the workflow completes. -/
theorem coordinator_workflow_fail_fast_witness :
    orchestrateWorkflow sampleRegistry "w1"
        ([⟨"t1", "collect"⟩] ++ ⟨"t2", "parse"⟩ :: [⟨"t3", "analyze"⟩]) 7 =
      { id := "w1",
        tasks := [⟨"t1", "collect"⟩, ⟨"t2", "parse"⟩, ⟨"t3", "analyze"⟩],
        results := [("t1", dispatchRecord ⟨"t1", "collect"⟩ "a1")],
        status := "failed", start_time := 7, end_time := none,
        error := some "No agent found for capability: parse" } ∧
    orchestrateWorkflow sampleRegistry "w2" [⟨"t1", "collect"⟩] 7 =
      { id := "w2", tasks := [⟨"t1", "collect"⟩],
        results := [("t1", dispatchRecord ⟨"t1", "collect"⟩ "a1")],
        status := "completed", start_time := 7, end_time := some 7,
        error := none } := by
  have h := coordinator_workflow_fail_fast sampleRegistry "w1"
    [⟨"t1", "collect"⟩] [⟨"t3", "analyze"⟩] [] ⟨"t2", "parse"⟩ 7
  have h2 := coordinator_workflow_fail_fast sampleRegistry "w2"
    [] [] [⟨"t1", "collect"⟩] ⟨"t2", "parse"⟩ 7
  constructor
  · rw [h.1 (by intro u hu; simp at hu; subst hu; rfl) rfl]
    rfl
  · rw [h2.2 (by intro u hu; simp at hu; subst hu; rfl)]
    rfl

/-- C10: `execute_task` reports success exactly for tasks of type
`orchestrate` — the TaskResult carries the orchestrated workflow as payload
whenever `orchestrate_workflow` returns, including a workflow whose own
status is failed — while any other task type yields success false with a null
payload and a non-empty error string. -/
theorem coordinator_execute_task_flag (reg : Registry) (task : CoordTask)
    (now : Nat) (aid : String) :
    ((executeTask reg task now aid).success = true ↔
      task.type = "orchestrate") ∧
    (task.type = "orchestrate" →
      executeTask reg task now aid =
        { task_id := task.id, agent_id := aid, success := true,
          result := some (orchestrateWorkflow reg task.workflow_id task.tasks now),
          error := none, execution_time := 0, metadata := [] }) ∧
    (task.type ≠ "orchestrate" →
      (executeTask reg task now aid).success = false ∧
      (executeTask reg task now aid).result = none ∧
      (executeTask reg task now aid).error =
        some ("Unknown task type: " ++ task.type) ∧
      ∀ msg, (executeTask reg task now aid).error = some msg → msg ≠ "") := by
  by_cases h : task.type = "orchestrate"
  · refine ⟨?_, ?_, ?_⟩
    · simp [executeTask, h]
    · intro _
      simp [executeTask, h]
    · intro hc
      exact absurd h hc
  · refine ⟨?_, ?_, ?_⟩
    · simp [executeTask, h]
    · intro hc
      exact absurd hc h
    · intro _
      refine ⟨by simp [executeTask, h], by simp [executeTask, h],
        by simp [executeTask, h], ?_⟩
      intro msg hmsg
      simp only [executeTask, h, if_false] at hmsg
      simp only [Option.some.injEq] at hmsg
      subst hmsg
      intro hc
      have hlen := congrArg String.length hc
      rw [String.length_append] at hlen
      have h19 : ("Unknown task type: ").length = 19 := rfl
      have h0 : ("" : String).length = 0 := rfl
      rw [h19, h0] at hlen
      omega

/-- Witness for C10: an orchestrate task whose workflow fails still yields a
success TaskResult carrying that failed workflow; a task of unknown type
yields a failure TaskResult with a non-empty message. -/
theorem coordinator_execute_task_flag_witness :
    (executeTask sampleRegistry
        { id := "k1", type := "orchestrate", workflow_id := "w1",
          tasks := [⟨"t2", "parse"⟩] } 7 "coordinator").success = true ∧
    ((executeTask sampleRegistry
        { id := "k1", type := "orchestrate", workflow_id := "w1",
          tasks := [⟨"t2", "parse"⟩] } 7 "coordinator").result.map
      (fun w => w.status)) = some "failed" ∧
    (executeTask sampleRegistry
        { id := "k2", type := "chat", workflow_id := "w1", tasks := [] }
        7 "coordinator").success = false ∧
    (executeTask sampleRegistry
        { id := "k2", type := "chat", workflow_id := "w1", tasks := [] }
        7 "coordinator").error = some "Unknown task type: chat" := by
  have h := coordinator_execute_task_flag sampleRegistry
    { id := "k1", type := "orchestrate", workflow_id := "w1",
      tasks := [⟨"t2", "parse"⟩] } 7 "coordinator"
  have h2 := coordinator_execute_task_flag sampleRegistry
    { id := "k2", type := "chat", workflow_id := "w1", tasks := [] }
    7 "coordinator"
  refine ⟨h.1.mpr rfl, ?_, ?_, ?_⟩
  · rw [h.2.1 rfl]
    rfl
  · exact (h2.2.2 (by decide)).1
  · exact (h2.2.2 (by decide)).2.2.1

/-- C9: serializing a message with `to_dict` and parsing the dictionary back
reconstructs a message with the same id, sender, receiver, message type,
content mapping and correlation id. -/
theorem message_to_dict_roundtrip (m : Message) :
    ∃ m2 : Message, Message.fromDict m.to_dict = some m2 ∧
      m2.id = m.id ∧ m2.sender = m.sender ∧ m2.receiver = m.receiver ∧
      m2.message_type = m.message_type ∧ m2.content = m.content ∧
      m2.correlation_id = m.correlation_id := by
  have hval : messageTypeOfValue m.message_type.value = some m.message_type := by
    cases m.message_type <;> rfl
  refine ⟨{ id := m.id, sender := m.sender, receiver := m.receiver,
            message_type := m.message_type, content := m.content,
            timestamp := (isoformat m.timestamp).toNat?.getD 0,
            correlation_id := m.correlation_id },
    ?_, rfl, rfl, rfl, rfl, rfl, rfl⟩
  simp only [Message.fromDict, Message.to_dict, hval]

/-! Reduction lemmas for the `Except` monad used by the RAG pipeline. -/

theorem bind_ok_eq {α β : Type} (a : α) (f : α → Except String β) :
    (Except.ok a >>= f) = f a := rfl

theorem bind_error_eq {α β : Type} (e : String) (f : α → Except String β) :
    ((Except.error e : Except String α) >>= f) = .error e := rfl

theorem bind_pure_eq {α β : Type} (a : α) (f : α → Except String β) :
    ((pure a : Except String α) >>= f) = f a := rfl

theorem pure_eq_ok {α : Type} (a : α) :
    (pure a : Except String α) = Except.ok a := rfl

/-- The batch loop only appends to its response accumulator. -/
theorem batchQueryLoop_acc (p : RAGPipeline) (k : Nat)
    (f : Option (List (String × MetaVal))) (rr : Bool) (qs : List String) :
    ∀ acc, batchQueryLoop p k f rr acc qs =
      acc ++ batchQueryLoop p k f rr [] qs := by
  induction qs with
  | nil => intro acc; simp [batchQueryLoop]
  | cons q2 rest ih =>
    intro acc
    cases h : p.query q2 k f rr with
    | ok r =>
      simp only [batchQueryLoop, h]
      rw [ih (acc ++ [r]), ih ([] ++ [r])]
      simp [List.append_assoc]
    | error e =>
      simp only [batchQueryLoop, h]
      rw [ih (acc ++ [errorResponse q2 e]), ih ([] ++ [errorResponse q2 e])]
      simp [List.append_assoc]

/-- Closed form of `batch_query`: one response per query, in input order, with
the substitute error response at raising positions. -/
theorem batchQuery_closed (p : RAGPipeline) (k : Nat)
    (f : Option (List (String × MetaVal))) (rr : Bool) (qs : List String) :
    p.batch_query qs k f rr = qs.map (fun q2 =>
      match p.query q2 k f rr with
      | .ok r => r
      | .error e => errorResponse q2 e) := by
  unfold RAGPipeline.batch_query
  induction qs with
  | nil => simp [batchQueryLoop]
  | cons q2 rest ih =>
    cases h : p.query q2 k f rr with
    | ok r =>
      simp only [batchQueryLoop, h]
      rw [batchQueryLoop_acc, ih]
      simp [List.map_cons, h]
    | error e =>
      simp only [batchQueryLoop, h]
      rw [batchQueryLoop_acc, ih]
      simp [List.map_cons, h]

/-- C5: `query` propagates any exception raised in retrieval, reranking,
generation or confidence estimation uncaught, whereas `batch_query` over N
queries returns exactly N responses in input order, substituting — at each
raising position only — a response with empty sources, confidence 0 and an
answer describing the failure. -/
theorem rag_query_raises_batch_substitutes (p : RAGPipeline) (q : String)
    (k : Nat) (f : Option (List (String × MetaVal))) (rr : Bool)
    (queries : List String) :
    (∀ e, p.retriever.retrieve q k f = .error e →
      p.query q k f rr = .error e) ∧
    (∀ rs e, p.retriever.retrieve q k f = .ok rs → (rr ∧ 1 < rs.length) →
      p.retriever.rerank q rs = .error e → p.query q k f rr = .error e) ∧
    (∀ rs ctx e, p.retriever.retrieve q k f = .ok rs →
      (if rr ∧ 1 < rs.length then p.retriever.rerank q rs = .ok ctx
       else ctx = rs) →
      p.generator.generate q ctx = .error e → p.query q k f rr = .error e) ∧
    (∀ rs ctx ans e, p.retriever.retrieve q k f = .ok rs →
      (if rr ∧ 1 < rs.length then p.retriever.rerank q rs = .ok ctx
       else ctx = rs) →
      p.generator.generate q ctx = .ok ans →
      p.generator.estimate_confidence q ans ctx = .error e →
      p.query q k f rr = .error e) ∧
    p.batch_query queries k f rr = queries.map (fun q2 =>
      match p.query q2 k f rr with
      | .ok r => r
      | .error e =>
        { query := q2, answer := "Error processing query: " ++ e,
          sources := [], confidence := 0,
          metadata := [("error", MetaVal.s e)] }) ∧
    (p.batch_query queries k f rr).length = queries.length := by
  refine ⟨?_, ?_, ?_, ?_, ?_, ?_⟩
  · intro e h
    simp only [RAGPipeline.query, h, bind_error_eq]
  · intro rs e hret hc hre
    simp only [RAGPipeline.query, hret, bind_ok_eq]
    rw [if_pos hc]
    simp only [hre, bind_error_eq]
  · intro rs ctx e hret hif hg
    simp only [RAGPipeline.query, hret, bind_ok_eq]
    by_cases hc : (rr = true) ∧ 1 < rs.length
    · rw [if_pos hc] at hif ⊢
      simp only [hif, bind_ok_eq, hg, bind_error_eq]
    · rw [if_neg hc] at hif ⊢
      subst hif
      simp only [bind_pure_eq, hg, bind_error_eq]
  · intro rs ctx ans e hret hif hg hconf
    simp only [RAGPipeline.query, hret, bind_ok_eq]
    by_cases hc : (rr = true) ∧ 1 < rs.length
    · rw [if_pos hc] at hif ⊢
      simp only [hif, bind_ok_eq, hg, hconf, bind_error_eq]
    · rw [if_neg hc] at hif ⊢
      subst hif
      simp only [bind_pure_eq, hg, bind_ok_eq, hconf, bind_error_eq]
  · rw [batchQuery_closed]
    apply List.map_congr_left
    intro q2 _
    cases p.query q2 k f rr <;> rfl
  · rw [batchQuery_closed, List.length_map]

/-- Witness for C5: the always-raising retriever makes `query` raise; the
per-query raising retriever leaves the other batch positions intact while the
raising position carries the substitute response. -/
theorem rag_query_raises_batch_substitutes_witness :
    failPipeline.query "q" 3 none true = .error "store unreachable" ∧
    (mixedPipeline.batch_query ["ok1", "bad", "ok2"] 3 none false).length = 3 ∧
    ((mixedPipeline.batch_query ["ok1", "bad", "ok2"] 3 none false).get? 1).map
        (fun r => (r.sources, r.confidence, r.answer)) =
      some ([], 0, "Error processing query: boom") ∧
    ((mixedPipeline.batch_query ["ok1", "bad", "ok2"] 3 none false).get? 0).map
        (fun r => r.sources) = some fiveResults ∧
    ((mixedPipeline.batch_query ["ok1", "bad", "ok2"] 3 none false).get? 2).map
        (fun r => r.sources) = some fiveResults := by
  have h := rag_query_raises_batch_substitutes failPipeline "q" 3 none true []
  have h2 := rag_query_raises_batch_substitutes mixedPipeline "x" 3 none false
    ["ok1", "bad", "ok2"]
  refine ⟨h.1 "store unreachable" rfl, ?_, ?_, ?_, ?_⟩
  · rw [h2.2.2.2.2.2]
    rfl
  · rw [h2.2.2.2.2.1]
    rfl
  · rw [h2.2.2.2.2.1]
    rfl
  · rw [h2.2.2.2.2.1]
    rfl

/-- C8: with rerank requested and more than one retrieved result, the
response's sources are exactly the sequence the rerank hook returned (for a
reversing reranker, the reverse of the raw order, with unchanged length);
with rerank off or at most one result, the rerank hook is irrelevant — any
pipeline differing only in its rerank hook behaves identically — and the
sources are the raw retrieval order. -/
theorem rag_rerank_order (p : RAGPipeline) (q : String) (k : Nat)
    (f : Option (List (String × MetaVal))) (rs rs2 : List QueryResult)
    (ans : String) (conf : Rat)
    (hret : p.retriever.retrieve q k f = .ok rs) :
    (1 < rs.length → p.retriever.rerank q rs = .ok rs2 →
      p.generator.generate q rs2 = .ok ans →
      p.generator.estimate_confidence q ans rs2 = .ok conf →
      p.query q k f true = .ok
        { query := q, answer := ans, sources := rs2, confidence := conf,
          metadata := [("retriever", MetaVal.s p.retriever.name),
                       ("generator", MetaVal.s p.generator.name),
                       ("k", MetaVal.n k), ("rerank", MetaVal.b true)] } ∧
      (rs2 = rs.reverse → rs2.length = rs.length)) ∧
    (p.generator.generate q rs = .ok ans →
      p.generator.estimate_confidence q ans rs = .ok conf →
      p.query q k f false = .ok
        { query := q, answer := ans, sources := rs, confidence := conf,
          metadata := [("retriever", MetaVal.s p.retriever.name),
                       ("generator", MetaVal.s p.generator.name),
                       ("k", MetaVal.n k), ("rerank", MetaVal.b false)] }) ∧
    (rs.length ≤ 1 → p.generator.generate q rs = .ok ans →
      p.generator.estimate_confidence q ans rs = .ok conf →
      p.query q k f true = .ok
        { query := q, answer := ans, sources := rs, confidence := conf,
          metadata := [("retriever", MetaVal.s p.retriever.name),
                       ("generator", MetaVal.s p.generator.name),
                       ("k", MetaVal.n k), ("rerank", MetaVal.b true)] }) ∧
    (∀ p2 : RAGPipeline, p2.retriever.retrieve = p.retriever.retrieve →
      p2.retriever.name = p.retriever.name → p2.generator = p.generator →
      p2.query q k f false = p.query q k f false ∧
      (rs.length ≤ 1 → p2.query q k f true = p.query q k f true)) := by
  refine ⟨?_, ?_, ?_, ?_⟩
  · intro hlen hre hg hconf
    constructor
    · simp only [RAGPipeline.query, hret, bind_ok_eq]
      rw [if_pos ⟨by trivial, hlen⟩]
      simp only [hre, bind_ok_eq, hg, hconf, pure_eq_ok]
    · intro hrev
      rw [hrev, List.length_reverse]
  · intro hg hconf
    simp only [RAGPipeline.query, hret, bind_ok_eq]
    rw [if_neg (fun hc => by cases hc.1)]
    simp only [bind_pure_eq, hg, bind_ok_eq, hconf, pure_eq_ok]
  · intro hlen hg hconf
    simp only [RAGPipeline.query, hret, bind_ok_eq]
    rw [if_neg (fun hc => absurd hc.2 (Nat.not_lt.mpr hlen))]
    simp only [bind_pure_eq, hg, bind_ok_eq, hconf, pure_eq_ok]
  · intro p2 hret2 hname hgen
    constructor
    · simp only [RAGPipeline.query, hret2, hname, hgen, Bool.false_eq_true,
        false_and, if_false]
    · intro hlen
      simp only [RAGPipeline.query, hret2, hname, hgen, hret, bind_ok_eq]
      rw [if_neg (fun hc => absurd hc.2 (Nat.not_lt.mpr hlen)),
          if_neg (fun hc => absurd hc.2 (Nat.not_lt.mpr hlen))]

/-- Witness for C8: the spec's worked example — rerank requested, five
retrieved results, a reverse-order reranker — yields sources in exactly the
reversed raw order with unchanged length. -/
theorem rag_rerank_order_witness :
    revPipeline.query "What is the 2023 budget for roads?" 3 none true =
      .ok { query := "What is the 2023 budget for roads?",
            answer := "the budget is 12",
            sources := fiveResults.reverse, confidence := 1,
            metadata := [("retriever", MetaVal.s "rev"),
                         ("generator", MetaVal.s "gen"),
                         ("k", MetaVal.n 3), ("rerank", MetaVal.b true)] } ∧
    fiveResults.reverse.length = fiveResults.length := by
  have h := rag_rerank_order revPipeline "What is the 2023 budget for roads?" 3
    none fiveResults fiveResults.reverse "the budget is 12" 1 rfl
  have h1 := h.1 (by simp [fiveResults]) rfl rfl rfl
  exact ⟨h1.1, h1.2 rfl⟩

end MairieRadar
